import Mathlib

/-!
Verification of the microgrid dispatch simulator.

The development embeds, over exact rational arithmetic, the two core
routines of the repository:

* `run_simulation` from `modules/simulation_engine.py` — the hour-by-hour
  dispatch loop (storage-first priority policy, SoC bookkeeping, grid
  import/export and per-step cost/revenue).  Python exceptions that are
  caught by the engine's `try`/`except` (which makes the function return
  `None`) are modelled by `Option`: the `ZeroDivisionError` raised when
  computing `battery_soc_percent` with `battery_capacity_kwh = 0`, the
  `ZeroDivisionError` raised in the surplus branch when
  `round_trip_efficiency = 0`, the `IndexError` raised by `.iloc[i]` when a
  generation series is shorter than the load series, and the `KeyError`
  raised by `set_index` on an empty result frame.

* the hour-by-hour energy-flow apportionment loop of `create_sankey_chart`
  from `modules/results_analyzer.py` (the accumulation of the eight
  source-to-destination totals; the plotting code around it is not
  modelled).
-/

/-- One row of the ledger emitted per hour by `run_simulation`
(the `hour_result` dict of `simulation_engine.py`; the timestamp column,
which merely echoes the input index, is omitted). -/
structure HourResult where
  mine_load_kw : ℚ
  solar_power_kw : ℚ
  wind_power_kw : ℚ
  renewable_total_kw : ℚ
  net_load_kw : ℚ
  battery_charge_kw : ℚ
  battery_discharge_kw : ℚ
  battery_soc_kwh : ℚ
  battery_soc_percent : ℚ
  grid_buy_kw : ℚ
  grid_sell_kw : ℚ
  grid_cost_usd : ℚ
  grid_revenue_usd : ℚ
  net_grid_cost_usd : ℚ
  deriving DecidableEq, Repr

/-- Placeholder row used only as the default of `List.getD`. -/
def defaultRow : HourResult :=
  ⟨0, 0, 0, 0, 0, 0, 0, 0, 0, 0, 0, 0, 0, 0⟩

/-- Assembly of one ledger row from the per-step flows (lines 364-390 of
`simulation_engine.py`).  Computing `battery_soc_percent` divides by
`battery_capacity_kwh`; in Python this raises `ZeroDivisionError` when the
capacity is zero, which the surrounding `except` turns into a `None`
result, hence the `none` branch here. -/
def mkRow (battery_capacity_kwh grid_purchase_price grid_sell_price : ℚ)
    (load_kw solar_kw wind_kw : ℚ)
    (battery_charge_kw battery_discharge_kw grid_buy_kw grid_sell_kw soc2 : ℚ) :
    Option (HourResult × ℚ) :=
  if battery_capacity_kwh = 0 then none
  else
    some (⟨load_kw, solar_kw, wind_kw, solar_kw + wind_kw,
      load_kw - (solar_kw + wind_kw),
      battery_charge_kw, battery_discharge_kw, soc2,
      soc2 / battery_capacity_kwh * 100,
      grid_buy_kw, grid_sell_kw,
      grid_buy_kw * grid_purchase_price / 1000,
      grid_sell_kw * grid_sell_price / 1000,
      grid_buy_kw * grid_purchase_price / 1000 -
        grid_sell_kw * grid_sell_price / 1000⟩, soc2)

/-- One iteration of the dispatch loop (lines 310-390 of
`simulation_engine.py`), from the previous `battery_soc_kwh` to the emitted
row and the updated `battery_soc_kwh`.  In the surplus branch the charge
limit divides by `round_trip_efficiency`; in Python an efficiency of zero
raises `ZeroDivisionError` there (caught, yielding `None`), hence `none`. -/
def simStep (battery_power_kw battery_capacity_kwh round_trip_efficiency
    grid_purchase_price grid_sell_price : ℚ)
    (load_kw solar_kw wind_kw battery_soc_kwh : ℚ) :
    Option (HourResult × ℚ) :=
  let renewable_generation_kw := solar_kw + wind_kw
  let net_load_kw := load_kw - renewable_generation_kw
  if 0 < net_load_kw then
    let battery_discharge_kw :=
      min battery_power_kw (min battery_soc_kwh net_load_kw)
    let soc2 := battery_soc_kwh - battery_discharge_kw
    let remaining_deficit := net_load_kw - battery_discharge_kw
    let grid_buy_kw := if 0 < remaining_deficit then remaining_deficit else 0
    mkRow battery_capacity_kwh grid_purchase_price grid_sell_price
      load_kw solar_kw wind_kw 0 battery_discharge_kw grid_buy_kw 0 soc2
  else if round_trip_efficiency = 0 then none
  else
    let excess_power_kw := -net_load_kw
    let battery_charge_kw :=
      min battery_power_kw
        (min ((battery_capacity_kwh - battery_soc_kwh) / round_trip_efficiency)
          excess_power_kw)
    let soc2 := battery_soc_kwh + battery_charge_kw * round_trip_efficiency
    let remaining_excess := excess_power_kw - battery_charge_kw
    let grid_sell_kw := if 0 < remaining_excess then remaining_excess else 0
    mkRow battery_capacity_kwh grid_purchase_price grid_sell_price
      load_kw solar_kw wind_kw battery_charge_kw 0 0 grid_sell_kw soc2

/-- The dispatch loop: `for i in range(len(mine_load))`, reading
`solar_power.iloc[i]` and `wind_power.iloc[i]`.  Exhausting a generation
series while load values remain is the `IndexError` path (caught,
yielding `None`); extra generation values beyond the load length are
silently ignored, as in the source. -/
def simLoop (battery_power_kw battery_capacity_kwh round_trip_efficiency
    grid_purchase_price grid_sell_price : ℚ) :
    ℚ → List ℚ → List ℚ → List ℚ → Option (List HourResult)
  | _, [], _, _ => some []
  | soc, load :: loads, s :: ss, w :: ws =>
    match simStep battery_power_kw battery_capacity_kwh round_trip_efficiency
        grid_purchase_price grid_sell_price load s w soc with
    | none => none
    | some (row, soc2) =>
      match simLoop battery_power_kw battery_capacity_kwh round_trip_efficiency
          grid_purchase_price grid_sell_price soc2 loads ss ws with
      | none => none
      | some rows => some (row :: rows)
  | _, _ :: _, [], _ => none
  | _, _ :: _, _ :: _, [] => none

/-- The engine `run_simulation` of `simulation_engine.py`.  The keyword
arguments (`grid_purchase_price`, `grid_sell_price`,
`round_trip_efficiency`) are taken as explicit parameters; unit conversion
and the hard-coded initial SoC of 50% follow lines 300-307.  An empty load
series makes `pd.DataFrame([]).set_index` raise `KeyError` in the source
(caught, yielding `None`), hence `none` for `[]`. -/
def run_simulation (mine_load solar_power wind_power : List ℚ)
    (battery_capacity_mwh battery_power_mw : ℚ)
    (grid_purchase_price grid_sell_price round_trip_efficiency : ℚ) :
    Option (List HourResult) :=
  let battery_capacity_kwh := battery_capacity_mwh * 1000
  let battery_power_kw := battery_power_mw * 1000
  let battery_soc_kwh := battery_capacity_kwh * (1 / 2)
  match mine_load with
  | [] => none
  | _ :: _ =>
    simLoop battery_power_kw battery_capacity_kwh round_trip_efficiency
      grid_purchase_price grid_sell_price battery_soc_kwh
      mine_load solar_power wind_power

/-- Running totals accumulated by the hour-by-hour loop of
`create_sankey_chart` (lines 204-262 of `results_analyzer.py`). -/
structure FlowTotals where
  solar_to_load : ℚ
  solar_to_battery : ℚ
  solar_to_grid : ℚ
  wind_to_load : ℚ
  wind_to_battery : ℚ
  wind_to_grid : ℚ
  grid_to_load : ℚ
  battery_to_load : ℚ
  deriving DecidableEq, Repr

/-- All-zero totals, the loop's initial state. -/
def zeroTotals : FlowTotals := ⟨0, 0, 0, 0, 0, 0, 0, 0⟩

/-- One iteration of the apportionment loop of `create_sankey_chart`
(lines 215-262).  The source guards the share computation with a second
`if renewable_total > 0` identical to the enclosing one; the two guards are
collapsed here.  The Python locals `solar_ratio` and `wind_ratio` are named
`solar_share` and `wind_share`. -/
def sankeyStep (t : FlowTotals) (h : HourResult) : FlowTotals :=
  let load_kw := h.mine_load_kw
  let solar_kw := h.solar_power_kw
  let wind_kw := h.wind_power_kw
  let renewable_total := solar_kw + wind_kw
  let t1 :=
    if 0 < renewable_total then
      let renewable_to_load := min renewable_total load_kw
      let solar_share := solar_kw / renewable_total
      let wind_share := wind_kw / renewable_total
      let ta := { t with
        solar_to_load := t.solar_to_load + renewable_to_load * solar_share
        wind_to_load := t.wind_to_load + renewable_to_load * wind_share }
      let remaining0 := renewable_total - renewable_to_load
      if 0 < remaining0 then
        let step1 :=
          if 0 < h.battery_charge_kw then
            let charge_from_renewable := min h.battery_charge_kw remaining0
            ({ ta with
              solar_to_battery :=
                ta.solar_to_battery + charge_from_renewable * solar_share
              wind_to_battery :=
                ta.wind_to_battery + charge_from_renewable * wind_share },
              remaining0 - charge_from_renewable)
          else (ta, remaining0)
        if 0 < step1.2 ∧ 0 < h.grid_sell_kw then
          let sell_from_renewable := min h.grid_sell_kw step1.2
          { step1.1 with
            solar_to_grid :=
              step1.1.solar_to_grid + sell_from_renewable * solar_share
            wind_to_grid :=
              step1.1.wind_to_grid + sell_from_renewable * wind_share }
        else step1.1
      else ta
    else t
  { t1 with
    grid_to_load := t1.grid_to_load + h.grid_buy_kw
    battery_to_load := t1.battery_to_load + h.battery_discharge_kw }

/-- The accumulated totals over a whole ledger (the loop of lines 215-262,
starting from the zero initialisation of lines 205-212). -/
def sankeyAccum (df : List HourResult) : FlowTotals :=
  df.foldl sankeyStep zeroTotals

/-- The totals after the kWh-to-GWh conversion of lines 264-272. -/
def sankeyFlowsGWh (df : List HourResult) : FlowTotals :=
  let t := sankeyAccum df
  ⟨t.solar_to_load / 1000000, t.solar_to_battery / 1000000,
    t.solar_to_grid / 1000000, t.wind_to_load / 1000000,
    t.wind_to_battery / 1000000, t.wind_to_grid / 1000000,
    t.grid_to_load / 1000000, t.battery_to_load / 1000000⟩

/-- Column total `simulation_results_df['battery_charge_kw'].sum() / 1e6`
(line 197 of `results_analyzer.py`). -/
def total_battery_charge_gwh (df : List HourResult) : ℚ :=
  (df.map HourResult.battery_charge_kw).sum / 1000000

/-- Column total `simulation_results_df['grid_sell_kw'].sum() / 1e6`
(line 198 of `results_analyzer.py`). -/
def total_grid_sell_gwh (df : List HourResult) : ℚ :=
  (df.map HourResult.grid_sell_kw).sum / 1000000

/-- Column total `simulation_results_df['mine_load_kw'].sum() / 1e6`
(line 196 of `results_analyzer.py`). -/
def total_load_consumption_gwh (df : List HourResult) : ℚ :=
  (df.map HourResult.mine_load_kw).sum / 1000000

/-- Net load of a ledger row, recomputed from its own demand and
per-source generation fields. -/
def netLoad (h : HourResult) : ℚ :=
  h.mine_load_kw - (h.solar_power_kw + h.wind_power_kw)

/-- The fixed-priority transition relation between the previous SoC and one
emitted ledger row: in deficit, discharge `min(P, SoC, L)` then import the
residual; in surplus, charge `min(P, (C - SoC)/eta, S)` then export the
residual. -/
def StepPolicy (P C eta soc : ℚ) (h : HourResult) : Prop :=
  (0 < netLoad h →
    h.battery_discharge_kw = min P (min soc (netLoad h)) ∧
    h.battery_soc_kwh = soc - h.battery_discharge_kw ∧
    h.grid_buy_kw = netLoad h - h.battery_discharge_kw ∧
    h.battery_charge_kw = 0 ∧ h.grid_sell_kw = 0) ∧
  (netLoad h ≤ 0 →
    h.battery_charge_kw = min P (min ((C - soc) / eta) (-netLoad h)) ∧
    h.battery_soc_kwh = soc + h.battery_charge_kw * eta ∧
    h.grid_sell_kw = -netLoad h - h.battery_charge_kw ∧
    h.battery_discharge_kw = 0 ∧ h.grid_buy_kw = 0)

/-- SoC seen by step `i` of a ledger: the run's initial SoC for `i = 0`,
otherwise the SoC recorded in row `i - 1`. -/
def prevSoc (soc0 : ℚ) (rows : List HourResult) (i : ℕ) : ℚ :=
  if i = 0 then soc0 else (rows.getD (i - 1) defaultRow).battery_soc_kwh

/-- Invariants of an emitted ledger row: SoC and power bounds, sign and
mutual-exclusion facts, the echo of the derived columns, and the balance of
the active branch. -/
def LedgerRow (P C : ℚ) (h : HourResult) : Prop :=
  0 ≤ h.battery_soc_kwh ∧ h.battery_soc_kwh ≤ C ∧
  0 ≤ h.battery_charge_kw ∧ h.battery_charge_kw ≤ P ∧
  0 ≤ h.battery_discharge_kw ∧ h.battery_discharge_kw ≤ P ∧
  0 ≤ h.grid_buy_kw ∧ 0 ≤ h.grid_sell_kw ∧
  h.renewable_total_kw = h.solar_power_kw + h.wind_power_kw ∧
  h.net_load_kw = netLoad h ∧
  ((0 < netLoad h ∧ h.battery_charge_kw = 0 ∧ h.grid_sell_kw = 0 ∧
      h.battery_discharge_kw + h.grid_buy_kw = netLoad h) ∨
    (netLoad h ≤ 0 ∧ h.battery_discharge_kw = 0 ∧ h.grid_buy_kw = 0 ∧
      h.battery_charge_kw + h.grid_sell_kw = -netLoad h))

/-- First row of the two-step reference run: deficit hour, demand 100,
no generation, SoC drops from 50 to 0 and 50 is imported. -/
def rowA0 : HourResult := ⟨100, 0, 0, 0, 100, 0, 50, 0, 0, 50, 0, 0, 0, 0⟩

/-- Second row of the two-step reference run: surplus hour, generation 80,
all of it charged, SoC rises to 72 at efficiency 9/10. -/
def rowA1 : HourResult := ⟨0, 80, 0, 80, -80, 80, 0, 72, 72, 0, 0, 0, 0, 0⟩

/-- Ledger of the two-step reference run. -/
def ledgerA : List HourResult := [rowA0, rowA1]

/-- Aggregate renewable generation of a ledger row. -/
def renewTotal (h : HourResult) : ℚ := h.solar_power_kw + h.wind_power_kw

/-- Portion of a row's generation that displaces demand directly. -/
def renewToLoad (h : HourResult) : ℚ := min (renewTotal h) h.mine_load_kw

/-- Generation remaining after the direct displacement of demand. -/
def renewRemainder (h : HourResult) : ℚ := renewTotal h - renewToLoad h

/-- Portion of the remainder apportioned to storage charge: capped by the
step's actual charge. -/
def chargeApportioned (h : HourResult) : ℚ :=
  min h.battery_charge_kw (renewRemainder h)

/-- Portion of the remainder left after charge that is apportioned to grid
export: capped by the step's actual export. -/
def exportApportioned (h : HourResult) : ℚ :=
  min h.grid_sell_kw (renewRemainder h - chargeApportioned h)

/-- The claim of C8 about one iteration of the apportionment loop: with
positive aggregate generation, load takes `min(R, D)` by instantaneous
shares, the remainder goes first to storage charge and only its leftover
to grid export, both capped by the step's actual aggregate flows and
apportioned by the same shares; with zero aggregate generation the
apportionment is skipped entirely. -/
def SankeyStepClaim (t : FlowTotals) (h : HourResult) : Prop :=
  (0 < renewTotal h →
    (sankeyStep t h).solar_to_load =
      t.solar_to_load + renewToLoad h * (h.solar_power_kw / renewTotal h) ∧
    (sankeyStep t h).wind_to_load =
      t.wind_to_load + renewToLoad h * (h.wind_power_kw / renewTotal h) ∧
    (sankeyStep t h).solar_to_battery =
      t.solar_to_battery +
        chargeApportioned h * (h.solar_power_kw / renewTotal h) ∧
    (sankeyStep t h).wind_to_battery =
      t.wind_to_battery +
        chargeApportioned h * (h.wind_power_kw / renewTotal h) ∧
    (sankeyStep t h).solar_to_grid =
      t.solar_to_grid +
        exportApportioned h * (h.solar_power_kw / renewTotal h) ∧
    (sankeyStep t h).wind_to_grid =
      t.wind_to_grid +
        exportApportioned h * (h.wind_power_kw / renewTotal h)) ∧
  (renewTotal h = 0 →
    (sankeyStep t h).solar_to_load = t.solar_to_load ∧
    (sankeyStep t h).wind_to_load = t.wind_to_load ∧
    (sankeyStep t h).solar_to_battery = t.solar_to_battery ∧
    (sankeyStep t h).wind_to_battery = t.wind_to_battery ∧
    (sankeyStep t h).solar_to_grid = t.solar_to_grid ∧
    (sankeyStep t h).wind_to_grid = t.wind_to_grid)

/-- Mixed surplus row used as the concrete apportionment example: demand
70 against solar 40 and wind 60, charging 10 and exporting 20. -/
def rowC8 : HourResult := ⟨70, 40, 60, 100, -30, 10, 0, 0, 0, 0, 20, 0, 0, 0⟩

/-- The per-row facts needed to reconcile the apportionment with the
engine's aggregate flows: nonnegative fields and the balance of the active
dispatch branch. -/
def RowCoherent (r : HourResult) : Prop :=
  0 ≤ r.mine_load_kw ∧ 0 ≤ r.solar_power_kw ∧ 0 ≤ r.wind_power_kw ∧
  0 ≤ r.battery_charge_kw ∧ 0 ≤ r.battery_discharge_kw ∧
  0 ≤ r.grid_buy_kw ∧ 0 ≤ r.grid_sell_kw ∧
  ((0 < netLoad r ∧ r.battery_charge_kw = 0 ∧ r.grid_sell_kw = 0 ∧
      r.battery_discharge_kw + r.grid_buy_kw = netLoad r) ∨
    (netLoad r ≤ 0 ∧ r.battery_discharge_kw = 0 ∧ r.grid_buy_kw = 0 ∧
      r.battery_charge_kw + r.grid_sell_kw = -netLoad r))

lemma ite_pos_sub (a b : ℚ) (h : b ≤ a) :
    (if 0 < a - b then a - b else 0) = a - b := by
  split_ifs with h1
  · rfl
  · linarith [not_lt.mp h1]

/-- Everything a successful `simStep` guarantees about the emitted row. -/
lemma simStep_some {P C eta pb ps load solar wind soc : ℚ}
    {row : HourResult} {soc2 : ℚ}
    (hrun : simStep P C eta pb ps load solar wind soc = some (row, soc2)) :
    row.mine_load_kw = load ∧ row.solar_power_kw = solar ∧
    row.wind_power_kw = wind ∧
    row.renewable_total_kw = solar + wind ∧
    row.net_load_kw = load - (solar + wind) ∧
    row.battery_soc_kwh = soc2 ∧
    row.battery_soc_percent = soc2 / C * 100 ∧
    row.grid_cost_usd = row.grid_buy_kw * pb / 1000 ∧
    row.grid_revenue_usd = row.grid_sell_kw * ps / 1000 ∧
    row.net_grid_cost_usd = row.grid_cost_usd - row.grid_revenue_usd ∧
    C ≠ 0 ∧
    ((0 < load - (solar + wind) ∧
        row.battery_discharge_kw = min P (min soc (load - (solar + wind))) ∧
        soc2 = soc - row.battery_discharge_kw ∧
        row.grid_buy_kw = load - (solar + wind) - row.battery_discharge_kw ∧
        row.battery_charge_kw = 0 ∧ row.grid_sell_kw = 0) ∨
      (load - (solar + wind) ≤ 0 ∧ eta ≠ 0 ∧
        row.battery_charge_kw =
          min P (min ((C - soc) / eta) (-(load - (solar + wind)))) ∧
        soc2 = soc + row.battery_charge_kw * eta ∧
        row.grid_sell_kw = -(load - (solar + wind)) - row.battery_charge_kw ∧
        row.battery_discharge_kw = 0 ∧ row.grid_buy_kw = 0)) := by
  simp only [simStep] at hrun
  by_cases hL : 0 < load - (solar + wind)
  · -- deficit branch
    rw [if_pos hL] at hrun
    simp only [mkRow] at hrun
    by_cases hc : C = 0
    · rw [if_pos hc] at hrun
      exact absurd hrun (by simp)
    · rw [if_neg hc, Option.some_inj] at hrun
      injection hrun with hrow hsoc
      subst hrow
      subst hsoc
      refine ⟨rfl, rfl, rfl, rfl, rfl, rfl, rfl, rfl, rfl, rfl, hc, Or.inl ?_⟩
      have hd : min P (min soc (load - (solar + wind))) ≤ load - (solar + wind) :=
        le_trans (min_le_right _ _) (min_le_right _ _)
      refine ⟨hL, rfl, rfl, ?_, rfl, rfl⟩
      simpa using ite_pos_sub _ _ hd
  · -- surplus branch
    rw [if_neg hL] at hrun
    by_cases heta : eta = 0
    · rw [if_pos heta] at hrun
      exact absurd hrun (by simp)
    · rw [if_neg heta] at hrun
      simp only [mkRow] at hrun
      by_cases hc : C = 0
      · rw [if_pos hc] at hrun
        exact absurd hrun (by simp)
      · rw [if_neg hc, Option.some_inj] at hrun
        injection hrun with hrow hsoc
        subst hrow
        subst hsoc
        refine ⟨rfl, rfl, rfl, rfl, rfl, rfl, rfl, rfl, rfl, rfl, hc, Or.inr ?_⟩
        have hce : min P (min ((C - soc) / eta) (-(load - (solar + wind)))) ≤
            -(load - (solar + wind)) :=
          le_trans (min_le_right _ _) (min_le_right _ _)
        refine ⟨not_lt.mp hL, heta, rfl, rfl, ?_, rfl, rfl⟩
        simpa using ite_pos_sub _ _ hce

/-- A successful `simStep` from a SoC inside `[0, C]` lands inside
`[0, C]` again, provided the power bound is nonnegative and the efficiency
is positive. -/
lemma simStep_soc_bounds {P C eta pb ps load solar wind soc : ℚ}
    {row : HourResult} {soc2 : ℚ}
    (hP : 0 ≤ P) (heta : 0 < eta) (h0 : 0 ≤ soc) (h1 : soc ≤ C)
    (hrun : simStep P C eta pb ps load solar wind soc = some (row, soc2)) :
    0 ≤ soc2 ∧ soc2 ≤ C := by
  obtain ⟨-, -, -, -, -, -, -, -, -, -, -, hbr⟩ := simStep_some hrun
  rcases hbr with ⟨hL, hd, hsoc, -, -, -⟩ | ⟨hL, -, hcg, hsoc, -, -, -⟩
  · have hd_le : row.battery_discharge_kw ≤ soc := by
      rw [hd]; exact le_trans (min_le_right _ _) (min_le_left _ _)
    have hd_nonneg : 0 ≤ row.battery_discharge_kw := by
      rw [hd]; exact le_min hP (le_min h0 hL.le)
    constructor <;> [skip; skip] <;> linarith
  · have hc_nonneg : 0 ≤ row.battery_charge_kw := by
      rw [hcg]
      exact le_min hP (le_min (div_nonneg (by linarith) heta.le) (by linarith))
    have hc_le : row.battery_charge_kw ≤ (C - soc) / eta := by
      rw [hcg]; exact le_trans (min_le_right _ _) (min_le_left _ _)
    have hmul : row.battery_charge_kw * eta ≤ C - soc :=
      (le_div_iff₀ heta).mp hc_le
    have hge : 0 ≤ row.battery_charge_kw * eta := mul_nonneg hc_nonneg heta.le
    constructor <;> linarith

/-- Inversion of one successful iteration of the dispatch loop. -/
lemma simLoop_cons {P C eta pb ps soc load : ℚ} {loads ss ws : List ℚ}
    {rows : List HourResult}
    (h : simLoop P C eta pb ps soc (load :: loads) ss ws = some rows) :
    ∃ s ss0 w ws0 row soc2 rest,
      ss = s :: ss0 ∧ ws = w :: ws0 ∧
      simStep P C eta pb ps load s w soc = some (row, soc2) ∧
      simLoop P C eta pb ps soc2 loads ss0 ws0 = some rest ∧
      rows = row :: rest := by
  match ss, ws with
  | [], _ => simp [simLoop] at h
  | s :: ss0, [] => simp [simLoop] at h
  | s :: ss0, w :: ws0 =>
    simp only [simLoop] at h
    rcases hstep : simStep P C eta pb ps load s w soc with - | ⟨row, soc2⟩
    · rw [hstep] at h
      simp at h
    · rw [hstep] at h
      dsimp only at h
      rcases hrest : simLoop P C eta pb ps soc2 loads ss0 ws0 with - | rest
      · rw [hrest] at h
        simp at h
      · rw [hrest] at h
        simp only [Option.some_inj] at h
        exact ⟨s, ss0, w, ws0, row, soc2, rest, rfl, rfl, hstep, hrest, h.symm⟩

/-- Per-step policy facts of `simStep`, phrased against the emitted row's
own demand/generation fields. -/
lemma simStep_policy {P C eta pb ps load s w soc : ℚ}
    {row : HourResult} {soc2 : ℚ}
    (hrun : simStep P C eta pb ps load s w soc = some (row, soc2)) :
    StepPolicy P C eta soc row ∧ row.battery_soc_kwh = soc2 := by
  obtain ⟨h1, h2, h3, -, -, h6, -, -, -, -, -, hbr⟩ := simStep_some hrun
  have hnet : netLoad row = load - (s + w) := by rw [netLoad, h1, h2, h3]
  refine ⟨⟨?_, ?_⟩, h6⟩
  · intro hpos
    rw [hnet] at hpos
    rcases hbr with ⟨-, hd, hsoc, hbuy, hc0, hs0⟩ | ⟨hL, -, -, -, -, -, -⟩
    · rw [hnet]
      exact ⟨hd, by rw [h6, hsoc], hbuy, hc0, hs0⟩
    · linarith
  · intro hnp
    rw [hnet] at hnp
    rcases hbr with ⟨hL, -, -, -, -, -⟩ | ⟨-, -, hc, hsoc, hsell, hd0, hbuy0⟩
    · linarith
    · rw [hnet]
      exact ⟨hc, by rw [h6, hsoc], hsell, hd0, hbuy0⟩

/-- A successful `simStep` from a SoC inside `[0, C]` emits a row
satisfying all the ledger invariants. -/
lemma simStep_ledgerRow {P C eta pb ps load s w soc : ℚ}
    {row : HourResult} {soc2 : ℚ}
    (hP : 0 ≤ P) (heta : 0 < eta) (h0 : 0 ≤ soc) (h1 : soc ≤ C)
    (hrun : simStep P C eta pb ps load s w soc = some (row, soc2)) :
    LedgerRow P C row := by
  obtain ⟨hm, hs, hw, hrt, hnl, hsoc, -, -, -, -, -, hbr⟩ := simStep_some hrun
  obtain ⟨hs0, hs1⟩ := simStep_soc_bounds hP heta h0 h1 hrun
  have hnet : netLoad row = load - (s + w) := by rw [netLoad, hm, hs, hw]
  rcases hbr with ⟨hL, hd, hsocv, hbuy, hc0, hsell0⟩ |
    ⟨hL, -, hc, hsocv, hsell, hd0, hbuy0⟩
  · have hd_nonneg : 0 ≤ row.battery_discharge_kw := by
      rw [hd]; exact le_min hP (le_min h0 hL.le)
    have hd_leP : row.battery_discharge_kw ≤ P := by
      rw [hd]; exact min_le_left _ _
    have hd_leL : row.battery_discharge_kw ≤ load - (s + w) := by
      rw [hd]; exact le_trans (min_le_right _ _) (min_le_right _ _)
    refine ⟨by rw [hsoc]; exact hs0, by rw [hsoc]; exact hs1,
      by rw [hc0], by rw [hc0]; exact hP, hd_nonneg, hd_leP,
      by rw [hbuy]; linarith, by rw [hsell0],
      by rw [hrt, hs, hw], by rw [hnl, hnet],
      Or.inl ⟨by rw [hnet]; exact hL, hc0, hsell0, by rw [hnet, hbuy]; ring⟩⟩
  · have hS : 0 ≤ -(load - (s + w)) := by linarith
    have hc_nonneg : 0 ≤ row.battery_charge_kw := by
      rw [hc]
      exact le_min hP (le_min (div_nonneg (by linarith) heta.le) hS)
    have hc_leP : row.battery_charge_kw ≤ P := by
      rw [hc]; exact min_le_left _ _
    have hc_leS : row.battery_charge_kw ≤ -(load - (s + w)) := by
      rw [hc]; exact le_trans (min_le_right _ _) (min_le_right _ _)
    refine ⟨by rw [hsoc]; exact hs0, by rw [hsoc]; exact hs1,
      hc_nonneg, hc_leP, by rw [hd0], by rw [hd0]; exact hP,
      by rw [hbuy0], by rw [hsell]; linarith,
      by rw [hrt, hs, hw], by rw [hnl, hnet],
      Or.inr ⟨by rw [hnet]; exact hL, hd0, hbuy0, by rw [hnet, hsell]; ring⟩⟩

/-- Every row emitted by the dispatch loop from a SoC inside `[0, C]`
satisfies the ledger invariants. -/
lemma simLoop_mem (P C eta pb ps : ℚ) (hP : 0 ≤ P) (heta : 0 < eta) :
    ∀ (loads ss ws : List ℚ) (soc : ℚ) (rows : List HourResult),
      0 ≤ soc → soc ≤ C →
      simLoop P C eta pb ps soc loads ss ws = some rows →
      ∀ r ∈ rows, LedgerRow P C r
  | [], _, _, _, rows, _, _, h, r, hr => by
    obtain rfl : rows = [] := by simpa [simLoop] using h.symm
    simp at hr
  | load :: loads, ss, ws, soc, rows, h0, h1, h, r, hr => by
    obtain ⟨s, ss0, w, ws0, row, soc2, rest, -, -, hstep, hrest, hrows⟩ :=
      simLoop_cons h
    subst hrows
    obtain ⟨hb0, hb1⟩ := simStep_soc_bounds hP heta h0 h1 hstep
    rcases List.mem_cons.mp hr with rfl | hr2
    · exact simStep_ledgerRow hP heta h0 h1 hstep
    · exact simLoop_mem P C eta pb ps hP heta loads ss0 ws0 soc2 rest
        hb0 hb1 hrest r hr2

/-- Every indexed row emitted by the dispatch loop follows the
fixed-priority policy from the SoC its step started at. -/
lemma simLoop_policy (P C eta pb ps : ℚ) :
    ∀ (loads ss ws : List ℚ) (soc : ℚ) (rows : List HourResult),
      simLoop P C eta pb ps soc loads ss ws = some rows →
      ∀ i, i < rows.length →
        StepPolicy P C eta (prevSoc soc rows i) (rows.getD i defaultRow)
  | [], _, _, _, rows, h, i, hi => by
    obtain rfl : rows = [] := by simpa [simLoop] using h.symm
    simp at hi
  | load :: loads, ss, ws, soc, rows, h, i, hi => by
    obtain ⟨s, ss0, w, ws0, row, soc2, rest, -, -, hstep, hrest, hrows⟩ :=
      simLoop_cons h
    subst hrows
    obtain ⟨hpol, hsoc⟩ := simStep_policy hstep
    cases i with
    | zero => simpa [prevSoc] using hpol
    | succ j =>
      have hj : j < rest.length := by simpa using hi
      have IH := simLoop_policy P C eta pb ps loads ss0 ws0 soc2 rest hrest j hj
      cases j with
      | zero => simpa [prevSoc, hsoc] using IH
      | succ k => simpa [prevSoc] using IH

/-- Unfolding of `run_simulation` on a nonempty load series. -/
lemma run_simulation_eq_simLoop {D S W : List ℚ} {cap pow pb ps eta : ℚ}
    (hD : D ≠ []) :
    run_simulation D S W cap pow pb ps eta =
      simLoop (pow * 1000) (cap * 1000) eta pb ps (cap * 1000 * (1 / 2))
        D S W := by
  cases D with
  | nil => exact absurd rfl hD
  | cons a as => rfl

/-- Initial SoC of a run is inside `[0, C]` when the capacity is
nonnegative. -/
lemma initial_soc_bounds {cap : ℚ} (hcap : 0 ≤ cap) :
    0 ≤ cap * 1000 * (1 / 2) ∧ cap * 1000 * (1 / 2) ≤ cap * 1000 := by
  constructor <;> nlinarith

/-- C1: for every run with equal-length nonnegative demand and generation
series, capacity at least 0, max power at least 0, and efficiency in
`(0, 1]`, every emitted ledger row follows the fixed-priority policy from
the SoC its step started at: in deficit, discharge
`min(P_max, previous SoC, L_i)`, decrease SoC 1:1, import the residual
`L_i - discharge`, and charge = export = 0; in surplus, charge
`min(P_max, (C - previous SoC)/eta, S_i)`, increase SoC by
`charge * eta`, export the residual `S_i - charge`, and
discharge = import = 0. -/
theorem run_simulation_follows_policy
    (mine_load solar_power wind_power : List ℚ)
    (battery_capacity_mwh battery_power_mw pb ps eta : ℚ)
    (hlen1 : solar_power.length = mine_load.length)
    (hlen2 : wind_power.length = mine_load.length)
    (hD : ∀ x ∈ mine_load, 0 ≤ x)
    (hS : ∀ x ∈ solar_power, 0 ≤ x)
    (hW : ∀ x ∈ wind_power, 0 ≤ x)
    (hcap : 0 ≤ battery_capacity_mwh) (hpow : 0 ≤ battery_power_mw)
    (heta0 : 0 < eta) (heta1 : eta ≤ 1)
    (rows : List HourResult)
    (hrun : run_simulation mine_load solar_power wind_power
      battery_capacity_mwh battery_power_mw pb ps eta = some rows)
    (i : ℕ) (hi : i < rows.length) :
    StepPolicy (battery_power_mw * 1000) (battery_capacity_mwh * 1000) eta
      (prevSoc (battery_capacity_mwh * 1000 * (1 / 2)) rows i)
      (rows.getD i defaultRow) := by
  cases mine_load with
  | nil => simp [run_simulation] at hrun
  | cons a as =>
    rw [run_simulation_eq_simLoop (by simp)] at hrun
    exact simLoop_policy _ _ _ _ _ _ _ _ _ _ hrun i hi

/-- C2: every row of a valid run satisfies all the bounds simultaneously:
SoC within `[0, capacity]`, charge and discharge within the power limit,
and mutual exclusion of charge/discharge and of import/export. -/
theorem run_simulation_ledger_bounds
    (mine_load solar_power wind_power : List ℚ)
    (battery_capacity_mwh battery_power_mw pb ps eta : ℚ)
    (hlen1 : solar_power.length = mine_load.length)
    (hlen2 : wind_power.length = mine_load.length)
    (hD : ∀ x ∈ mine_load, 0 ≤ x)
    (hS : ∀ x ∈ solar_power, 0 ≤ x)
    (hW : ∀ x ∈ wind_power, 0 ≤ x)
    (hcap : 0 ≤ battery_capacity_mwh) (hpow : 0 ≤ battery_power_mw)
    (heta0 : 0 < eta) (heta1 : eta ≤ 1)
    (rows : List HourResult)
    (hrun : run_simulation mine_load solar_power wind_power
      battery_capacity_mwh battery_power_mw pb ps eta = some rows) :
    ∀ r ∈ rows,
      0 ≤ r.battery_soc_kwh ∧
      r.battery_soc_kwh ≤ battery_capacity_mwh * 1000 ∧
      r.battery_charge_kw ≤ battery_power_mw * 1000 ∧
      r.battery_discharge_kw ≤ battery_power_mw * 1000 ∧
      r.battery_charge_kw * r.battery_discharge_kw = 0 ∧
      r.grid_buy_kw * r.grid_sell_kw = 0 := by
  intro r hr
  obtain ⟨hi0, hi1⟩ := initial_soc_bounds hcap
  have hP : (0 : ℚ) ≤ battery_power_mw * 1000 := by nlinarith
  cases mine_load with
  | nil => simp [run_simulation] at hrun
  | cons a as =>
    rw [run_simulation_eq_simLoop (by simp)] at hrun
    obtain ⟨hsoc0, hsoc1, hc0, hcP, hd0, hdP, hbuy0, hsell0, -, -, hbr⟩ :=
      simLoop_mem _ _ eta pb ps hP heta0 _ _ _ _ _ hi0 hi1 hrun r hr
    refine ⟨hsoc0, hsoc1, hcP, hdP, ?_, ?_⟩
    · rcases hbr with ⟨-, hc, -, -⟩ | ⟨-, hd, -, -⟩
      · rw [hc, zero_mul]
      · rw [hd, mul_zero]
    · rcases hbr with ⟨-, -, hs, -⟩ | ⟨-, -, hb, -⟩
      · rw [hs, mul_zero]
      · rw [hb, zero_mul]

/-- C3: every row of a successful run satisfies the per-step
energy-conservation identity
`demand + charge = renewable + discharge + import - export` exactly. -/
theorem run_simulation_conservation
    (mine_load solar_power wind_power : List ℚ)
    (battery_capacity_mwh battery_power_mw pb ps eta : ℚ)
    (hlen1 : solar_power.length = mine_load.length)
    (hlen2 : wind_power.length = mine_load.length)
    (hD : ∀ x ∈ mine_load, 0 ≤ x)
    (hS : ∀ x ∈ solar_power, 0 ≤ x)
    (hW : ∀ x ∈ wind_power, 0 ≤ x)
    (hcap : 0 ≤ battery_capacity_mwh) (hpow : 0 ≤ battery_power_mw)
    (heta0 : 0 < eta) (heta1 : eta ≤ 1)
    (rows : List HourResult)
    (hrun : run_simulation mine_load solar_power wind_power
      battery_capacity_mwh battery_power_mw pb ps eta = some rows) :
    ∀ r ∈ rows,
      r.mine_load_kw + r.battery_charge_kw =
        r.renewable_total_kw + r.battery_discharge_kw +
          r.grid_buy_kw - r.grid_sell_kw := by
  intro r hr
  obtain ⟨hi0, hi1⟩ := initial_soc_bounds hcap
  have hP : (0 : ℚ) ≤ battery_power_mw * 1000 := by nlinarith
  cases mine_load with
  | nil => simp [run_simulation] at hrun
  | cons a as =>
    rw [run_simulation_eq_simLoop (by simp)] at hrun
    obtain ⟨-, -, -, -, -, -, -, -, hrt, -, hbr⟩ :=
      simLoop_mem _ _ eta pb ps hP heta0 _ _ _ _ _ hi0 hi1 hrun r hr
    rw [hrt]
    rcases hbr with ⟨-, hc, hs, hbal⟩ | ⟨-, hd, hb, hbal⟩ <;>
      rw [netLoad] at hbal
    · rw [hc, hs]
      linarith
    · rw [hd, hb]
      linarith

/-- C10: every row of a valid run has all four flow fields nonnegative. -/
theorem run_simulation_flows_nonneg
    (mine_load solar_power wind_power : List ℚ)
    (battery_capacity_mwh battery_power_mw pb ps eta : ℚ)
    (hD : ∀ x ∈ mine_load, 0 ≤ x)
    (hS : ∀ x ∈ solar_power, 0 ≤ x)
    (hW : ∀ x ∈ wind_power, 0 ≤ x)
    (hcap : 0 ≤ battery_capacity_mwh) (hpow : 0 ≤ battery_power_mw)
    (heta0 : 0 < eta) (heta1 : eta ≤ 1)
    (rows : List HourResult)
    (hrun : run_simulation mine_load solar_power wind_power
      battery_capacity_mwh battery_power_mw pb ps eta = some rows) :
    ∀ r ∈ rows,
      0 ≤ r.battery_charge_kw ∧ 0 ≤ r.battery_discharge_kw ∧
      0 ≤ r.grid_buy_kw ∧ 0 ≤ r.grid_sell_kw := by
  intro r hr
  obtain ⟨hi0, hi1⟩ := initial_soc_bounds hcap
  have hP : (0 : ℚ) ≤ battery_power_mw * 1000 := by nlinarith
  cases mine_load with
  | nil => simp [run_simulation] at hrun
  | cons a as =>
    rw [run_simulation_eq_simLoop (by simp)] at hrun
    obtain ⟨-, -, hc0, -, hd0, -, hbuy0, hsell0, -, -, -⟩ :=
      simLoop_mem _ _ eta pb ps hP heta0 _ _ _ _ _ hi0 hi1 hrun r hr
    exact ⟨hc0, hd0, hbuy0, hsell0⟩

/-- The reference run evaluates to `ledgerA`: demand `[100, 0]`, solar
`[0, 80]`, capacity 0.1 MWh, power 0.1 MW, efficiency 9/10. -/
lemma ledgerA_run :
    run_simulation [100, 0] [0, 80] [0, 0] (1/10) (1/10) 0 0 (9/10) =
      some ledgerA := by
  norm_num [run_simulation, simLoop, simStep, mkRow, min_def,
    ledgerA, rowA0, rowA1]

/-- Witness for C1 at the reference run's first step. -/
theorem run_simulation_follows_policy_witness :
    StepPolicy ((1/10) * 1000) ((1/10) * 1000) (9/10)
      (prevSoc ((1/10) * 1000 * (1 / 2)) ledgerA 0)
      (ledgerA.getD 0 defaultRow) :=
  run_simulation_follows_policy [100, 0] [0, 80] [0, 0] (1/10) (1/10) 0 0
    (9/10) rfl rfl
    (by norm_num [List.forall_mem_cons]) (by norm_num [List.forall_mem_cons])
    (by norm_num [List.forall_mem_cons]) (by norm_num) (by norm_num)
    (by norm_num) (by norm_num) ledgerA ledgerA_run 0 (by simp [ledgerA])

/-- Witness for C2 at the reference run's second row. -/
theorem run_simulation_ledger_bounds_witness :
    0 ≤ rowA1.battery_soc_kwh ∧
    rowA1.battery_soc_kwh ≤ (1/10) * 1000 ∧
    rowA1.battery_charge_kw ≤ (1/10) * 1000 ∧
    rowA1.battery_discharge_kw ≤ (1/10) * 1000 ∧
    rowA1.battery_charge_kw * rowA1.battery_discharge_kw = 0 ∧
    rowA1.grid_buy_kw * rowA1.grid_sell_kw = 0 :=
  run_simulation_ledger_bounds [100, 0] [0, 80] [0, 0] (1/10) (1/10) 0 0
    (9/10) rfl rfl
    (by norm_num [List.forall_mem_cons]) (by norm_num [List.forall_mem_cons])
    (by norm_num [List.forall_mem_cons]) (by norm_num) (by norm_num)
    (by norm_num) (by norm_num) ledgerA ledgerA_run rowA1 (by simp [ledgerA])

/-- Witness for C3 at the reference run's second row. -/
theorem run_simulation_conservation_witness :
    rowA1.mine_load_kw + rowA1.battery_charge_kw =
      rowA1.renewable_total_kw + rowA1.battery_discharge_kw +
        rowA1.grid_buy_kw - rowA1.grid_sell_kw :=
  run_simulation_conservation [100, 0] [0, 80] [0, 0] (1/10) (1/10) 0 0
    (9/10) rfl rfl
    (by norm_num [List.forall_mem_cons]) (by norm_num [List.forall_mem_cons])
    (by norm_num [List.forall_mem_cons]) (by norm_num) (by norm_num)
    (by norm_num) (by norm_num) ledgerA ledgerA_run rowA1 (by simp [ledgerA])

/-- Witness for C10 at the reference run's first row. -/
theorem run_simulation_flows_nonneg_witness :
    0 ≤ rowA0.battery_charge_kw ∧ 0 ≤ rowA0.battery_discharge_kw ∧
    0 ≤ rowA0.grid_buy_kw ∧ 0 ≤ rowA0.grid_sell_kw :=
  run_simulation_flows_nonneg [100, 0] [0, 80] [0, 0] (1/10) (1/10) 0 0
    (9/10)
    (by norm_num [List.forall_mem_cons]) (by norm_num [List.forall_mem_cons])
    (by norm_num [List.forall_mem_cons]) (by norm_num) (by norm_num)
    (by norm_num) (by norm_num) ledgerA ledgerA_run rowA0 (by simp [ledgerA])

/-- C4 (code bug): at a step importing 100 kW with purchase price 0.1 the
recorded cost is 1/100, not import times price = 10 — the source divides
the product by 1000 although its own comment declares the price in $/kWh. -/
theorem grid_cost_off_by_thousand :
    run_simulation [100] [0] [0] 1 0 (1/10) 0 (85/100) =
      some [⟨100, 0, 0, 0, 100, 0, 0, 500, 50, 100, 0, 1/100, 0, 1/100⟩] ∧
    (1 : ℚ) / 100 ≠ 100 * (1/10) := by
  constructor
  · norm_num [run_simulation, simLoop, simStep, mkRow, min_def]
  · norm_num

/-- C6 (code bug): scenario A (demand `[100]`, zero generation, capacity 0,
max power 0, efficiency 1, purchase price 0.1) makes the engine fail and
return no ledger at all: `battery_soc_percent` divides by the zero
capacity. -/
theorem scenario_a_returns_none :
    run_simulation [100] [0] [0] 0 0 (1/10) 0 1 = none := by
  norm_num [run_simulation, simLoop, simStep, mkRow, min_def]

/-- C5 (counterexample): a negative demand value is accepted and simulated
arithmetically — the engine emits a normal one-row ledger instead of
failing with a structured error and no output. -/
theorem negative_demand_accepted :
    run_simulation [-50] [0] [0] 1 1 0 0 (85/100) =
      some [⟨-50, 0, 0, 0, -50, 50, 0, 1085/2, 217/4, 0, 0, 0, 0, 0⟩] := by
  norm_num [run_simulation, simLoop, simStep, mkRow, min_def]

/-- With a nonzero capacity and efficiency the dispatch loop always
succeeds, emitting one row per load value — no validation of signs or
lengths happens beyond running out of generation values. -/
lemma simLoop_total (P C eta pb ps : ℚ) (hC : C ≠ 0) (heta : eta ≠ 0) :
    ∀ (loads ss ws : List ℚ) (soc : ℚ),
      loads.length ≤ ss.length → loads.length ≤ ws.length →
      ∃ rows, simLoop P C eta pb ps soc loads ss ws = some rows ∧
        rows.length = loads.length
  | [], _, _, _, _, _ => ⟨[], rfl, rfl⟩
  | load :: loads, ss, ws, soc, h1, h2 => by
    match ss, ws with
    | [], _ => simp at h1
    | s :: ss0, [] => simp at h2
    | s :: ss0, w :: ws0 =>
      have hstep : ∃ row soc2,
          simStep P C eta pb ps load s w soc = some (row, soc2) := by
        simp only [simStep, mkRow]
        by_cases hL : 0 < load - (s + w)
        · rw [if_pos hL, if_neg hC]
          exact ⟨_, _, rfl⟩
        · rw [if_neg hL, if_neg heta, if_neg hC]
          exact ⟨_, _, rfl⟩
      obtain ⟨row, soc2, hstep⟩ := hstep
      obtain ⟨rest, hrest, hlen⟩ :=
        simLoop_total P C eta pb ps hC heta loads ss0 ws0 soc2
          (by simpa using h1) (by simpa using h2)
      refine ⟨row :: rest, ?_, by simp [hlen]⟩
      simp only [simLoop]
      rw [hstep]
      dsimp only
      rw [hrest]

/-- A generation series shorter than the load series always makes the
dispatch loop fail (the `IndexError` path). -/
lemma simLoop_short (P C eta pb ps : ℚ) :
    ∀ (loads ss ws : List ℚ) (soc : ℚ),
      ss.length < loads.length ∨ ws.length < loads.length →
      simLoop P C eta pb ps soc loads ss ws = none
  | [], _, _, _, h => by simp at h
  | load :: loads, [], ws, soc, _ => by simp [simLoop]
  | load :: loads, s :: ss0, [], soc, _ => by simp [simLoop]
  | load :: loads, s :: ss0, w :: ws0, soc, h => by
    have h2 : ss0.length < loads.length ∨ ws0.length < loads.length := by
      rcases h with h | h
      · exact Or.inl (by simpa using h)
      · exact Or.inr (by simpa using h)
    simp only [simLoop]
    rcases hstep : simStep P C eta pb ps load s w soc with - | ⟨row, soc2⟩
    · rfl
    · dsimp only
      rw [simLoop_short P C eta pb ps loads ss0 ws0 soc2 h2]

/-- C5 (amended): `run_simulation` performs no eager validation.  With a
nonzero capacity and efficiency it emits one row per load value whatever
the signs of the inputs; a generation series shorter than the load series
fails during the loop (the swallowed error yields `None`, never a partial
ledger); an empty load series also yields `None`. -/
theorem run_simulation_no_validation :
    (∀ (D S W : List ℚ) (cap pow pb ps eta : ℚ),
        D ≠ [] → cap ≠ 0 → eta ≠ 0 →
        D.length ≤ S.length → D.length ≤ W.length →
        ∃ rows, run_simulation D S W cap pow pb ps eta = some rows ∧
          rows.length = D.length) ∧
    (∀ (D S W : List ℚ) (cap pow pb ps eta : ℚ),
        S.length < D.length ∨ W.length < D.length →
        run_simulation D S W cap pow pb ps eta = none) ∧
    (∀ (S W : List ℚ) (cap pow pb ps eta : ℚ),
        run_simulation [] S W cap pow pb ps eta = none) := by
  refine ⟨?_, ?_, ?_⟩
  · intro D S W cap pow pb ps eta hD hcap heta h1 h2
    rw [run_simulation_eq_simLoop hD]
    exact simLoop_total _ _ _ _ _ (mul_ne_zero hcap (by norm_num)) heta
      D S W _ h1 h2
  · intro D S W cap pow pb ps eta h
    cases D with
    | nil => rfl
    | cons a as =>
      rw [run_simulation_eq_simLoop (by simp)]
      exact simLoop_short _ _ _ _ _ _ _ _ _ h
  · intro S W cap pow pb ps eta
    rfl

/-- Witness for the amended C5: a negative-demand run emits a one-row
ledger, a short solar series yields `None`, an empty demand yields
`None`. -/
theorem run_simulation_no_validation_witness :
    (∃ rows, run_simulation [-50] [0] [0] 1 1 0 0 (85/100) = some rows ∧
      rows.length = 1) ∧
    run_simulation [5, 5] [0] [0, 0] 1 1 0 0 (85/100) = none ∧
    run_simulation [] [0] [0] 1 1 0 0 (85/100) = none := by
  refine ⟨?_, ?_, ?_⟩
  · have h := run_simulation_no_validation.1 [-50] [0] [0] 1 1 0 0 (85/100)
      (by simp) (by norm_num) (by norm_num) (by simp) (by simp)
    simpa using h
  · exact run_simulation_no_validation.2.1 [5, 5] [0] [0, 0] 1 1 0 0 (85/100)
      (Or.inl (by simp))
  · exact run_simulation_no_validation.2.2 [0] [0] 1 1 0 0 (85/100)

/-- C7 (counterexample): on scenario B's inputs (demand `[50]`, generation
`[80]`, capacity 100 kWh, max power 100 kW, efficiency 9/10) the run
starts from the hard-coded SoC of 50 — there is no initial-SoC parameter —
and the emitted SoC is 77, not the 27 the scenario predicts from an
initial SoC of 0. -/
theorem scenario_b_soc_is_77 :
    run_simulation [50] [80] [0] (1/10) (1/10) 0 0 (9/10) =
      some [⟨50, 80, 0, 80, -30, 30, 0, 77, 77, 0, 0, 0, 0, 0⟩] ∧
    (77 : ℚ) ≠ 27 := by
  constructor
  · norm_num [run_simulation, simLoop, simStep, mkRow, min_def]
  · norm_num

/-- An idle step (zero demand, zero generation, zero max power) leaves the
SoC unchanged. -/
lemma simStep_idle (P C eta pb ps soc : ℚ) (hC : C ≠ 0) (heta : 0 < eta)
    (hP : 0 ≤ P) (hsoc : soc ≤ C) :
    simStep P C eta pb ps 0 0 0 soc =
      some (⟨0, 0, 0, 0, 0, 0, 0, soc, soc / C * 100, 0, 0, 0, 0, 0⟩,
        soc) := by
  have hq : (0 : ℚ) ≤ (C - soc) / eta := div_nonneg (by linarith) heta.le
  have hmin : min P (min ((C - soc) / eta) 0) = 0 := by
    rw [min_eq_right hq]
    exact min_eq_right hP
  simp only [simStep, mkRow]
  rw [if_neg (by norm_num : ¬ (0 : ℚ) < 0 - (0 + 0)), if_neg heta.ne',
    if_neg hC]
  norm_num [hmin]

/-- C7 (amended): the initial SoC of every run is fixed at one-half of
capacity and is not caller-configurable (the engine has no initial-SoC
parameter): an idle first step emits SoC = capacity/2, and scenario B's
inputs — which ask for an initial SoC of 0 — actually start from 50,
yielding charge 30 and SoC 77. -/
theorem run_simulation_initial_soc_half (cap pb ps eta : ℚ)
    (hcap : 0 < cap) (heta : 0 < eta) :
    (∃ r, run_simulation [0] [0] [0] cap 0 pb ps eta = some [r] ∧
      r.battery_soc_kwh = cap * 1000 * (1 / 2)) ∧
    (∃ r, run_simulation [50] [80] [0] (1/10) (1/10) 0 0 (9/10) =
        some [r] ∧
      r.battery_charge_kw = 30 ∧ r.battery_soc_kwh = 77) := by
  constructor
  · have hC : cap * 1000 ≠ 0 := by positivity
    have hsoc : cap * 1000 * (1 / 2) ≤ cap * 1000 := by nlinarith
    have hP : (0 : ℚ) ≤ 0 * 1000 := by norm_num
    rw [run_simulation_eq_simLoop (by simp)]
    simp only [simLoop]
    rw [simStep_idle (0 * 1000) (cap * 1000) eta pb ps
      (cap * 1000 * (1 / 2)) hC heta hP hsoc]
    exact ⟨_, rfl, rfl⟩
  · refine ⟨⟨50, 80, 0, 80, -30, 30, 0, 77, 77, 0, 0, 0, 0, 0⟩, ?_, rfl, rfl⟩
    norm_num [run_simulation, simLoop, simStep, mkRow, min_def]

/-- Witness for the amended C7 at capacity 1 MWh and efficiency 1. -/
theorem run_simulation_initial_soc_half_witness :
    (∃ r, run_simulation [0] [0] [0] 1 0 0 0 1 = some [r] ∧
      r.battery_soc_kwh = 1 * 1000 * (1 / 2)) ∧
    (∃ r, run_simulation [50] [80] [0] (1/10) (1/10) 0 0 (9/10) =
        some [r] ∧
      r.battery_charge_kw = 30 ∧ r.battery_soc_kwh = 77) :=
  run_simulation_initial_soc_half 1 0 0 1 (by norm_num) (by norm_num)

/-- With no positive aggregate generation, `sankeyStep` only accumulates
the grid and storage contributions to load. -/
lemma sankeyStep_no_renewable (t : FlowTotals) (h : HourResult)
    (hR : ¬ 0 < h.solar_power_kw + h.wind_power_kw) :
    sankeyStep t h =
      { t with
        grid_to_load := t.grid_to_load + h.grid_buy_kw
        battery_to_load := t.battery_to_load + h.battery_discharge_kw } := by
  simp only [sankeyStep]
  rw [if_neg hR]

/-- With positive aggregate generation and nonnegative charge and export
fields, the six renewable-apportionment fields of `sankeyStep` are the
capped amounts times the instantaneous shares. -/
lemma sankeyStep_fields (t : FlowTotals) (h : HourResult)
    (hc : 0 ≤ h.battery_charge_kw) (hs : 0 ≤ h.grid_sell_kw)
    (hR : 0 < h.solar_power_kw + h.wind_power_kw) :
    (sankeyStep t h).solar_to_load =
      t.solar_to_load + renewToLoad h * (h.solar_power_kw / renewTotal h) ∧
    (sankeyStep t h).wind_to_load =
      t.wind_to_load + renewToLoad h * (h.wind_power_kw / renewTotal h) ∧
    (sankeyStep t h).solar_to_battery =
      t.solar_to_battery +
        chargeApportioned h * (h.solar_power_kw / renewTotal h) ∧
    (sankeyStep t h).wind_to_battery =
      t.wind_to_battery +
        chargeApportioned h * (h.wind_power_kw / renewTotal h) ∧
    (sankeyStep t h).solar_to_grid =
      t.solar_to_grid +
        exportApportioned h * (h.solar_power_kw / renewTotal h) ∧
    (sankeyStep t h).wind_to_grid =
      t.wind_to_grid +
        exportApportioned h * (h.wind_power_kw / renewTotal h) := by
  have hml : min (h.solar_power_kw + h.wind_power_kw) h.mine_load_kw ≤
      h.solar_power_kw + h.wind_power_kw := min_le_left _ _
  have h0 : 0 ≤ h.solar_power_kw + h.wind_power_kw -
      min (h.solar_power_kw + h.wind_power_kw) h.mine_load_kw := by linarith
  simp only [sankeyStep, renewTotal, renewToLoad, renewRemainder,
    chargeApportioned, exportApportioned]
  rw [if_pos hR]
  by_cases h2 : 0 < h.solar_power_kw + h.wind_power_kw -
      min (h.solar_power_kw + h.wind_power_kw) h.mine_load_kw
  · rw [if_pos h2]
    by_cases h3 : 0 < h.battery_charge_kw
    · rw [if_pos h3]
      dsimp only
      by_cases h4 : 0 < h.solar_power_kw + h.wind_power_kw -
            min (h.solar_power_kw + h.wind_power_kw) h.mine_load_kw -
            min h.battery_charge_kw
              (h.solar_power_kw + h.wind_power_kw -
                min (h.solar_power_kw + h.wind_power_kw) h.mine_load_kw) ∧
          0 < h.grid_sell_kw
      · rw [if_pos h4]
        exact ⟨rfl, rfl, rfl, rfl, rfl, rfl⟩
      · rw [if_neg h4]
        dsimp only
        have hzero : min h.grid_sell_kw
            (h.solar_power_kw + h.wind_power_kw -
              min (h.solar_power_kw + h.wind_power_kw) h.mine_load_kw -
              min h.battery_charge_kw
                (h.solar_power_kw + h.wind_power_kw -
                  min (h.solar_power_kw + h.wind_power_kw) h.mine_load_kw)) =
            0 := by
          rcases not_and_or.mp h4 with h5 | h5
          · have hle : min h.battery_charge_kw
                (h.solar_power_kw + h.wind_power_kw -
                  min (h.solar_power_kw + h.wind_power_kw) h.mine_load_kw) ≤
                h.solar_power_kw + h.wind_power_kw -
                  min (h.solar_power_kw + h.wind_power_kw) h.mine_load_kw :=
              min_le_right _ _
            have : h.solar_power_kw + h.wind_power_kw -
                min (h.solar_power_kw + h.wind_power_kw) h.mine_load_kw -
                min h.battery_charge_kw
                  (h.solar_power_kw + h.wind_power_kw -
                    min (h.solar_power_kw + h.wind_power_kw) h.mine_load_kw) =
                0 := by
              have := not_lt.mp h5
              linarith
            rw [this]
            exact min_eq_right hs
          · have hsz : h.grid_sell_kw = 0 := le_antisymm (not_lt.mp h5) hs
            rw [hsz]
            refine min_eq_left ?_
            have : min h.battery_charge_kw
                (h.solar_power_kw + h.wind_power_kw -
                  min (h.solar_power_kw + h.wind_power_kw) h.mine_load_kw) ≤
                h.solar_power_kw + h.wind_power_kw -
                  min (h.solar_power_kw + h.wind_power_kw) h.mine_load_kw :=
              min_le_right _ _
            linarith
        rw [hzero]
        refine ⟨rfl, rfl, rfl, rfl, by ring, by ring⟩
    · rw [if_neg h3]
      dsimp only
      have hcz : h.battery_charge_kw = 0 := le_antisymm (not_lt.mp h3) hc
      have hminc : min h.battery_charge_kw
          (h.solar_power_kw + h.wind_power_kw -
            min (h.solar_power_kw + h.wind_power_kw) h.mine_load_kw) = 0 := by
        rw [hcz]
        exact min_eq_left h0
      by_cases h4 : 0 < h.solar_power_kw + h.wind_power_kw -
            min (h.solar_power_kw + h.wind_power_kw) h.mine_load_kw ∧
          0 < h.grid_sell_kw
      · rw [if_pos h4, hminc]
        dsimp only
        simp [sub_zero]
      · rw [if_neg h4]
        have hzero : min h.grid_sell_kw
            (h.solar_power_kw + h.wind_power_kw -
              min (h.solar_power_kw + h.wind_power_kw) h.mine_load_kw -
              min h.battery_charge_kw
                (h.solar_power_kw + h.wind_power_kw -
                  min (h.solar_power_kw + h.wind_power_kw) h.mine_load_kw)) =
            0 := by
          rcases not_and_or.mp h4 with h5 | h5
          · exact absurd h2 h5
          · have hsz : h.grid_sell_kw = 0 := le_antisymm (not_lt.mp h5) hs
            rw [hsz]
            refine min_eq_left ?_
            rw [hminc]
            linarith
        rw [hzero, hminc]
        dsimp only
        refine ⟨rfl, rfl, by ring, by ring, by ring, by ring⟩
  · rw [if_neg h2]
    have hz : h.solar_power_kw + h.wind_power_kw -
        min (h.solar_power_kw + h.wind_power_kw) h.mine_load_kw = 0 := by
      have := not_lt.mp h2
      linarith
    have hminc : min h.battery_charge_kw
        (h.solar_power_kw + h.wind_power_kw -
          min (h.solar_power_kw + h.wind_power_kw) h.mine_load_kw) = 0 := by
      rw [hz]
      exact min_eq_right hc
    have hmins : min h.grid_sell_kw
        (h.solar_power_kw + h.wind_power_kw -
          min (h.solar_power_kw + h.wind_power_kw) h.mine_load_kw -
          min h.battery_charge_kw
            (h.solar_power_kw + h.wind_power_kw -
              min (h.solar_power_kw + h.wind_power_kw) h.mine_load_kw)) =
        0 := by
      rw [hminc, hz]
      simpa using min_eq_right hs
    rw [hmins, hminc]
    dsimp only
    refine ⟨rfl, rfl, by ring, by ring, by ring, by ring⟩

/-- C8: for every accumulator state and ledger row with nonnegative charge
and export fields, one iteration of the apportionment loop realises the
claimed scheme — `min(R, D)` to load by instantaneous shares, the
remainder first to storage charge (capped by the actual charge), only the
leftover after charge to grid export (capped by the actual export), and
nothing at all when the aggregate generation is zero. -/
theorem sankeyStep_apportionment (t : FlowTotals) (h : HourResult)
    (hc : 0 ≤ h.battery_charge_kw) (hs : 0 ≤ h.grid_sell_kw) :
    SankeyStepClaim t h := by
  constructor
  · intro hR
    have hR2 : 0 < h.solar_power_kw + h.wind_power_kw := by
      simpa [renewTotal] using hR
    exact sankeyStep_fields t h hc hs hR2
  · intro hR0
    have hR2 : ¬ 0 < h.solar_power_kw + h.wind_power_kw := by
      simp only [renewTotal] at hR0
      rw [hR0]
      norm_num
    rw [sankeyStep_no_renewable t h hR2]
    exact ⟨rfl, rfl, rfl, rfl, rfl, rfl⟩

/-- Witness for C8 at the mixed surplus row and zero accumulators. -/
theorem sankeyStep_apportionment_witness : SankeyStepClaim zeroTotals rowC8 :=
  sankeyStep_apportionment zeroTotals rowC8 (by norm_num [rowC8])
    (by norm_num [rowC8])

lemma share_sum (s w x : ℚ) (h : s + w ≠ 0) :
    x * (s / (s + w)) + x * (w / (s + w)) = x := by
  field_simp
  ring

/-- One iteration of the apportionment loop adds exactly the row's charge
to the two battery totals, exactly the row's export to the two grid
totals, and exactly the row's demand to the four load totals, for any
coherent row. -/
lemma sankeyStep_increments (t : FlowTotals) (r : HourResult)
    (hrow : RowCoherent r) :
    (sankeyStep t r).solar_to_battery + (sankeyStep t r).wind_to_battery =
      t.solar_to_battery + t.wind_to_battery + r.battery_charge_kw ∧
    (sankeyStep t r).solar_to_grid + (sankeyStep t r).wind_to_grid =
      t.solar_to_grid + t.wind_to_grid + r.grid_sell_kw ∧
    (sankeyStep t r).solar_to_load + (sankeyStep t r).wind_to_load +
        (sankeyStep t r).grid_to_load + (sankeyStep t r).battery_to_load =
      t.solar_to_load + t.wind_to_load + t.grid_to_load + t.battery_to_load +
        r.mine_load_kw := by
  obtain ⟨hD, hsol, hwin, hc, hd, hb, hs, hbr⟩ := hrow
  by_cases hR : 0 < r.solar_power_kw + r.wind_power_kw
  · obtain ⟨f1, f2, f3, f4, f5, f6⟩ := sankeyStep_fields t r hc hs hR
    have hRne : r.solar_power_kw + r.wind_power_kw ≠ 0 := hR.ne'
    have hRT : renewTotal r = r.solar_power_kw + r.wind_power_kw := rfl
    have hload : renewToLoad r +
        (r.battery_discharge_kw + r.grid_buy_kw) = r.mine_load_kw := by
      rcases hbr with ⟨hL, -, -, hbal⟩ | ⟨hL, hd0, hb0, -⟩
      · have hmin : renewToLoad r = r.solar_power_kw + r.wind_power_kw := by
          rw [renewToLoad, hRT]
          rw [netLoad] at hL
          exact min_eq_left (by linarith)
        rw [netLoad] at hbal
        rw [hmin, hbal]
        ring
      · have hmin : renewToLoad r = r.mine_load_kw := by
          rw [renewToLoad, hRT]
          rw [netLoad] at hL
          exact min_eq_right (by linarith)
        rw [hmin, hd0, hb0]
        ring
    have hcharge : chargeApportioned r = r.battery_charge_kw := by
      rcases hbr with ⟨hL, hc0, -, -⟩ | ⟨hL, -, -, hbal⟩
      · have hmin : renewToLoad r = r.solar_power_kw + r.wind_power_kw := by
          rw [renewToLoad, hRT]
          rw [netLoad] at hL
          exact min_eq_left (by linarith)
        rw [chargeApportioned, renewRemainder, hmin, hRT, hc0]
        simp
      · have hmin : renewToLoad r = r.mine_load_kw := by
          rw [renewToLoad, hRT]
          rw [netLoad] at hL
          exact min_eq_right (by linarith)
        rw [netLoad] at hbal
        refine min_eq_left ?_
        rw [renewRemainder, hmin, hRT]
        linarith
    have hexport : exportApportioned r = r.grid_sell_kw := by
      rcases hbr with ⟨hL, hc0, hs0, -⟩ | ⟨hL, -, -, hbal⟩
      · have hmin : renewToLoad r = r.solar_power_kw + r.wind_power_kw := by
          rw [renewToLoad, hRT]
          rw [netLoad] at hL
          exact min_eq_left (by linarith)
        rw [exportApportioned, hcharge, renewRemainder, hmin, hRT, hs0, hc0]
        simp
      · have hmin : renewToLoad r = r.mine_load_kw := by
          rw [renewToLoad, hRT]
          rw [netLoad] at hL
          exact min_eq_right (by linarith)
        rw [netLoad] at hbal
        rw [exportApportioned, hcharge, renewRemainder, hmin, hRT]
        have : r.solar_power_kw + r.wind_power_kw - r.mine_load_kw -
            r.battery_charge_kw = r.grid_sell_kw := by linarith
        rw [this]
        exact min_self _
    refine ⟨?_, ?_, ?_⟩
    · rw [f3, f4, hRT, hcharge]
      have := share_sum r.solar_power_kw r.wind_power_kw
        r.battery_charge_kw hRne
      linarith
    · rw [f5, f6, hRT, hexport]
      have := share_sum r.solar_power_kw r.wind_power_kw
        r.grid_sell_kw hRne
      linarith
    · have hg : (sankeyStep t r).grid_to_load =
          t.grid_to_load + r.grid_buy_kw := by
        simp only [sankeyStep]
        rw [if_pos hR]
        by_cases h2 : 0 < r.solar_power_kw + r.wind_power_kw -
            min (r.solar_power_kw + r.wind_power_kw) r.mine_load_kw
        · rw [if_pos h2]
          by_cases h3 : 0 < r.battery_charge_kw
          · rw [if_pos h3]
            dsimp only
            split_ifs <;> rfl
          · rw [if_neg h3]
            dsimp only
            split_ifs <;> rfl
        · rw [if_neg h2]
      have hbat : (sankeyStep t r).battery_to_load =
          t.battery_to_load + r.battery_discharge_kw := by
        simp only [sankeyStep]
        rw [if_pos hR]
        by_cases h2 : 0 < r.solar_power_kw + r.wind_power_kw -
            min (r.solar_power_kw + r.wind_power_kw) r.mine_load_kw
        · rw [if_pos h2]
          by_cases h3 : 0 < r.battery_charge_kw
          · rw [if_pos h3]
            dsimp only
            split_ifs <;> rfl
          · rw [if_neg h3]
            dsimp only
            split_ifs <;> rfl
        · rw [if_neg h2]
      rw [f1, f2, hg, hbat, hRT]
      have := share_sum r.solar_power_kw r.wind_power_kw
        (renewToLoad r) hRne
      linarith
  · have hR0 : r.solar_power_kw + r.wind_power_kw = 0 :=
      le_antisymm (not_lt.mp hR) (by linarith)
    have hflow : r.battery_charge_kw = 0 ∧ r.grid_sell_kw = 0 ∧
        r.battery_discharge_kw + r.grid_buy_kw = r.mine_load_kw := by
      rcases hbr with ⟨hL, hc0, hs0, hbal⟩ | ⟨hL, hd0, hb0, hbal⟩
      · rw [netLoad] at hbal
        exact ⟨hc0, hs0, by rw [hbal, hR0]; ring⟩
      · rw [netLoad] at hL hbal
        have hD0 : r.mine_load_kw = 0 := by
          rw [hR0] at hL
          linarith
        have : r.battery_charge_kw + r.grid_sell_kw = 0 := by
          rw [hbal, hD0, hR0]
          ring
        exact ⟨by linarith, by linarith, by rw [hd0, hb0, hD0]; norm_num⟩
    obtain ⟨hc0, hs0, hbal⟩ := hflow
    rw [sankeyStep_no_renewable t r hR]
    refine ⟨by rw [hc0]; ring, by rw [hs0]; ring, ?_⟩
    dsimp only
    linarith

/-- Rows echo the input values, so nonnegative input series give rows with
nonnegative demand and generation fields. -/
lemma simLoop_nonneg_fields (P C eta pb ps : ℚ) :
    ∀ (loads ss ws : List ℚ) (soc : ℚ) (rows : List HourResult),
      (∀ x ∈ loads, 0 ≤ x) → (∀ x ∈ ss, 0 ≤ x) → (∀ x ∈ ws, 0 ≤ x) →
      simLoop P C eta pb ps soc loads ss ws = some rows →
      ∀ r ∈ rows,
        0 ≤ r.mine_load_kw ∧ 0 ≤ r.solar_power_kw ∧ 0 ≤ r.wind_power_kw
  | [], _, _, _, rows, _, _, _, h, r, hr => by
    obtain rfl : rows = [] := by simpa [simLoop] using h.symm
    simp at hr
  | load :: loads, ss, ws, soc, rows, hL, hS, hW, h, r, hr => by
    obtain ⟨s, ss0, w, ws0, row, soc2, rest, hss, hws, hstep, hrest, hrows⟩ :=
      simLoop_cons h
    subst hrows
    subst hss
    subst hws
    rcases List.mem_cons.mp hr with rfl | hr2
    · obtain ⟨hm, hsf, hwf, -⟩ := simStep_some hstep
      refine ⟨?_, ?_, ?_⟩
      · rw [hm]; exact hL load (by simp)
      · rw [hsf]; exact hS s (by simp)
      · rw [hwf]; exact hW w (by simp)
    · exact simLoop_nonneg_fields P C eta pb ps loads ss0 ws0 soc2 rest
        (fun x hx => hL x (by simp [hx])) (fun x hx => hS x (by simp [hx]))
        (fun x hx => hW x (by simp [hx])) hrest r hr2

/-- Folding the apportionment over a ledger of coherent rows accumulates
exactly the column totals of charge, export, and demand. -/
lemma sankey_foldl :
    ∀ (df : List HourResult), (∀ r ∈ df, RowCoherent r) →
      ∀ t : FlowTotals,
        ((df.foldl sankeyStep t).solar_to_battery +
            (df.foldl sankeyStep t).wind_to_battery =
          t.solar_to_battery + t.wind_to_battery +
            (df.map HourResult.battery_charge_kw).sum) ∧
        ((df.foldl sankeyStep t).solar_to_grid +
            (df.foldl sankeyStep t).wind_to_grid =
          t.solar_to_grid + t.wind_to_grid +
            (df.map HourResult.grid_sell_kw).sum) ∧
        ((df.foldl sankeyStep t).solar_to_load +
            (df.foldl sankeyStep t).wind_to_load +
            (df.foldl sankeyStep t).grid_to_load +
            (df.foldl sankeyStep t).battery_to_load =
          t.solar_to_load + t.wind_to_load + t.grid_to_load +
            t.battery_to_load + (df.map HourResult.mine_load_kw).sum)
  | [], _, t => by simp
  | r :: rest, hdf, t => by
    obtain ⟨h1, h2, h3⟩ := sankeyStep_increments t r (hdf r (by simp))
    obtain ⟨g1, g2, g3⟩ :=
      sankey_foldl rest (fun x hx => hdf x (by simp [hx])) (sankeyStep t r)
    refine ⟨?_, ?_, ?_⟩ <;>
      simp only [List.foldl_cons, List.map_cons, List.sum_cons] <;>
      linarith

/-- C9: for every ledger produced by the engine from valid inputs, the
attributor's accumulated flows into each destination sum — over all
contributing sources — to the aggregate flow into that destination
reported by the ledger: solar-to-battery plus wind-to-battery equals total
storage charge, solar-to-grid plus wind-to-grid equals total grid export,
and the four contributions to load sum to total demand. -/
theorem sankey_attribution_conservation
    (mine_load solar_power wind_power : List ℚ)
    (battery_capacity_mwh battery_power_mw pb ps eta : ℚ)
    (hD : ∀ x ∈ mine_load, 0 ≤ x)
    (hS : ∀ x ∈ solar_power, 0 ≤ x)
    (hW : ∀ x ∈ wind_power, 0 ≤ x)
    (hcap : 0 ≤ battery_capacity_mwh) (hpow : 0 ≤ battery_power_mw)
    (heta0 : 0 < eta) (heta1 : eta ≤ 1)
    (df : List HourResult)
    (hrun : run_simulation mine_load solar_power wind_power
      battery_capacity_mwh battery_power_mw pb ps eta = some df) :
    ((sankeyFlowsGWh df).solar_to_battery +
        (sankeyFlowsGWh df).wind_to_battery =
      total_battery_charge_gwh df) ∧
    ((sankeyFlowsGWh df).solar_to_grid + (sankeyFlowsGWh df).wind_to_grid =
      total_grid_sell_gwh df) ∧
    ((sankeyFlowsGWh df).solar_to_load + (sankeyFlowsGWh df).wind_to_load +
        (sankeyFlowsGWh df).grid_to_load +
        (sankeyFlowsGWh df).battery_to_load =
      total_load_consumption_gwh df) := by
  have hco : ∀ r ∈ df, RowCoherent r := by
    intro r hr
    cases mine_load with
    | nil => simp [run_simulation] at hrun
    | cons a as =>
      rw [run_simulation_eq_simLoop (by simp)] at hrun
      have hP : (0 : ℚ) ≤ battery_power_mw * 1000 := by nlinarith
      obtain ⟨hi0, hi1⟩ := initial_soc_bounds hcap
      obtain ⟨-, -, hc0, -, hd0, -, hb0, hs0, -, -, hbr⟩ :=
        simLoop_mem _ _ eta pb ps hP heta0 _ _ _ _ _ hi0 hi1 hrun r hr
      obtain ⟨hm, hsf, hwf⟩ :=
        simLoop_nonneg_fields _ _ eta pb ps _ _ _ _ _ hD hS hW hrun r hr
      exact ⟨hm, hsf, hwf, hc0, hd0, hb0, hs0, hbr⟩
  obtain ⟨h1, h2, h3⟩ := sankey_foldl df hco zeroTotals
  simp only [zeroTotals] at h1 h2 h3
  refine ⟨?_, ?_, ?_⟩ <;>
    simp only [sankeyFlowsGWh, sankeyAccum, zeroTotals,
      total_battery_charge_gwh, total_grid_sell_gwh,
      total_load_consumption_gwh, div_add_div_same] <;>
    congr 1 <;>
    linarith

/-- Witness for C9 at the two-step reference run. -/
theorem sankey_attribution_conservation_witness :
    ((sankeyFlowsGWh ledgerA).solar_to_battery +
        (sankeyFlowsGWh ledgerA).wind_to_battery =
      total_battery_charge_gwh ledgerA) ∧
    ((sankeyFlowsGWh ledgerA).solar_to_grid +
        (sankeyFlowsGWh ledgerA).wind_to_grid =
      total_grid_sell_gwh ledgerA) ∧
    ((sankeyFlowsGWh ledgerA).solar_to_load +
        (sankeyFlowsGWh ledgerA).wind_to_load +
        (sankeyFlowsGWh ledgerA).grid_to_load +
        (sankeyFlowsGWh ledgerA).battery_to_load =
      total_load_consumption_gwh ledgerA) :=
  sankey_attribution_conservation [100, 0] [0, 80] [0, 0] (1/10) (1/10) 0 0
    (9/10)
    (by norm_num [List.forall_mem_cons]) (by norm_num [List.forall_mem_cons])
    (by norm_num [List.forall_mem_cons]) (by norm_num) (by norm_num)
    (by norm_num) (by norm_num) ledgerA ledgerA_run
